import Mathlib

/-!
Verification of `docker/development/mongo-init.js`.

A shallow embedding of the MongoDB bootstrap script of `azfe_portfolio_api`.

The script is a straight-line sequence of shell statements: one rebinding of
the `db` handle, eleven `createCollection` calls, nine `createIndex` calls and
two `print` calls.  It is embedded as the list `script` of statements, in
source order, and executed by `exec`, which stops at the first statement that
throws (the script has no `try`/`catch`).

The statements call into the database server, which is not part of the
repository; its three operations used here (`createCollection`, `createIndex`,
`insertOne`) are modelled from the specification.  `execWith` is the same
executor with, in addition, requests that the server cannot satisfy for a
reason outside the database state.
-/

namespace MongoInit

/-! ## Data model -/

/-- Scalar field values of a document. -/
inductive Value where
  | str (s : String)
  | int (n : Int)
deriving DecidableEq, Repr

/-- A document is a list of field/value pairs. -/
abbrev Document := List (String × Value)

/-- Value of field `f` in document `d`; `none` when the field is missing. -/
def Document.get (d : Document) (f : String) : Option Value :=
  d.lookup f

/-- An index of the catalog: the collection it is attached to, its key
pattern (field and direction, `1` ascending, `-1` descending, as written in
the first argument of `createIndex`) and the `unique` option. -/
structure IndexSpec where
  coll : String
  key : List (String × Int)
  unique : Bool
deriving DecidableEq, Repr

/-- The index is descending when its key pattern has a negative direction. -/
def IndexSpec.descending (ix : IndexSpec) : Bool :=
  ix.key.any (fun p => decide (p.2 < 0))

/-- One logical database: the collection names and the indexes of its catalog,
and its documents, each tagged with the collection holding it, in insertion
order. -/
structure Database where
  collections : List String
  indexes : List IndexSpec
  docs : List (String × Document)
deriving DecidableEq, Repr

/-- A database with no collection, no index and no document. -/
def Database.empty : Database := ⟨[], [], []⟩

/-- Documents of collection `c`, in insertion order. -/
def Database.docsOf (d : Database) (c : String) : List Document :=
  (d.docs.filter (fun p => decide (p.1 = c))).map Prod.snd

/-- The tuple of values a document has at the fields of a key pattern. -/
def keyOf (key : List (String × Int)) (doc : Document) : List (Option Value) :=
  key.map (fun p => doc.get p.1)

/-- Append `x` at the end unless it is already listed. -/
def addNew {α : Type} [DecidableEq α] : List α → α → List α
  | [], x => [x]
  | y :: l, x => if x = y then y :: l else y :: addNew l x

/-! ## The database server's operations -/

/-- Modelled from the spec: the server's `createCollection`, which is not in the
repository. "Collection creation is a no-op if the collection already exists";
otherwise the name is added to the catalog. It never throws (`none`). -/
def Database.createCollection (d : Database) (name : String) : Option Database :=
  some { d with collections := addNew d.collections name }

/-- Modelled from the spec: the server's `createIndex`, which is not in the
repository. A request for an index that already exists is a success and a
no-op. A unique index cannot be established, and the call throws (`none`),
when two documents of the collection share a value of the key. Otherwise the
index is added to the catalog (and the collection, when it is not there yet). -/
def Database.createIndex (d : Database) (ix : IndexSpec) : Option Database :=
  if ix ∈ d.indexes then some d
  else if ix.unique ∧ ¬ ((d.docsOf ix.coll).map (keyOf ix.key)).Nodup then none
  else some { d with collections := addNew d.collections ix.coll,
                     indexes := d.indexes ++ [ix] }

/-- Modelled from the spec: the server's insertion of one document, which is
not in the repository. The write is rejected (`none`) when a unique index of
the collection already holds the document's key value; otherwise the document
is appended (collections "se crean automáticamente al insertar"). -/
def Database.insertOne (d : Database) (c : String) (doc : Document) : Option Database :=
  if ∃ ix ∈ d.indexes, ix.coll = c ∧ ix.unique = true ∧
      keyOf ix.key doc ∈ (d.docsOf c).map (keyOf ix.key) then none
  else some { d with collections := addNew d.collections c,
                     docs := d.docs ++ [(c, doc)] }

/-- The database after an attempted insertion: a rejected write changes nothing. -/
def Database.afterInsert (d : Database) (c : String) (doc : Document) : Database :=
  (d.insertOne c doc).getD d

/-! ## The shell and the script -/

/-- The statements the script is made of. -/
inductive Stmt where
  /-- Statement `db = db.getSiblingDB(name);` -/
  | getSiblingDB (name : String)
  /-- Statement `db.createCollection(name);` -/
  | createCollection (name : String)
  /-- Statement `db.<coll>.createIndex(key, { unique: unique });`, where
  `unique` is `false` when the options argument is absent -/
  | createIndex (coll : String) (key : List (String × Int)) (unique : Bool)
  /-- Statement `print(msg);` -/
  | print (msg : String)
deriving DecidableEq, Repr

/-- State of a shell session: the name the `db` variable is bound to, the
databases of the server by name, and the lines printed so far. -/
structure Shell where
  db : String
  server : String → Database
  out : List String

/-- Execute one statement; `none` when it throws. -/
def step (sh : Shell) : Stmt → Option Shell
  | .getSiblingDB name => some { sh with db := name }
  | .createCollection name =>
      ((sh.server sh.db).createCollection name).map
        (fun d => { sh with server := Function.update sh.server sh.db d })
  | .createIndex coll key unique =>
      ((sh.server sh.db).createIndex ⟨coll, key, unique⟩).map
        (fun d => { sh with server := Function.update sh.server sh.db d })
  | .print msg => some { sh with out := sh.out ++ [msg] }

/-- Result of executing a statement list: the state reached, and the position
of the statement that threw, if any. -/
structure Outcome where
  shell : Shell
  failedAt : Option Nat

/-- Execute statements in order, numbering them from `n`; the first statement
that throws ends the execution, and what was done before it stays done. -/
def exec : List Stmt → Nat → Shell → Outcome
  | [], _, sh => ⟨sh, none⟩
  | st :: rest, n, sh =>
      match step sh st with
      | none => ⟨sh, some n⟩
      | some sh' => exec rest (n + 1) sh'

/-- Whether a statement is a `print` call. -/
def Stmt.isPrint : Stmt → Bool
  | .print _ => true
  | _ => false

/-- Name of the target database (line 5 of the script). -/
def targetDb : String := "portfolio_db"

/-- First confirmation line (line 31). -/
def msgInitialized : String := "✅ Base de datos portfolio_db inicializada correctamente"

/-- Second confirmation line (line 32). -/
def msgCreated : String := "✅ Colecciones e índices creados"

/-- The statements of `mongo-init.js`, in source order (lines 5 to 32). -/
def script : List Stmt :=
  [ .getSiblingDB "portfolio_db",
    .createCollection "profiles",
    .createCollection "contact_information",
    .createCollection "social_networks",
    .createCollection "projects",
    .createCollection "work_experiences",
    .createCollection "education",
    .createCollection "additional_training",
    .createCollection "certifications",
    .createCollection "skills",
    .createCollection "tools",
    .createCollection "contact_messages",
    .createIndex "profiles" [("id", 1)] true,
    .createIndex "contact_information" [("id", 1)] true,
    .createIndex "social_networks" [("order_index", 1)] false,
    .createIndex "projects" [("order_index", 1)] false,
    .createIndex "work_experiences" [("order_index", 1)] false,
    .createIndex "education" [("order_index", 1)] false,
    .createIndex "skills" [("order_index", 1)] false,
    .createIndex "tools" [("order_index", 1)] false,
    .createIndex "contact_messages" [("sent_at", -1)] false,
    .print "✅ Base de datos portfolio_db inicializada correctamente",
    .print "✅ Colecciones e índices creados" ]

/-- Run the script in a fresh shell session whose `db` variable is initially
bound to `h`, against the server state `srv`. -/
def run (h : String) (srv : String → Database) : Outcome :=
  exec script 0 ⟨h, srv, []⟩

/-- The target database after the run. -/
def runDb (h : String) (srv : String → Database) : Database :=
  (run h srv).shell.server targetDb

/-- A server none of whose databases holds anything. -/
def freshServer : String → Database := fun _ => Database.empty

/-- The collection-creation requests a statement list issues, each with the
database the `db` handle names at that point (`h` initially). -/
def collectionRequests : String → List Stmt → List (String × String)
  | _, [] => []
  | _, .getSiblingDB name :: rest => collectionRequests name rest
  | h, .createCollection name :: rest => (h, name) :: collectionRequests h rest
  | h, _ :: rest => collectionRequests h rest

/-- The index-creation requests a statement list issues, each with the
database the `db` handle names at that point (`h` initially). -/
def indexRequests : String → List Stmt → List (String × IndexSpec)
  | _, [] => []
  | _, .getSiblingDB name :: rest => indexRequests name rest
  | h, .createIndex coll key unique :: rest =>
      (h, ⟨coll, key, unique⟩) :: indexRequests h rest
  | h, _ :: rest => indexRequests h rest

/-- The eleven collection names, as listed in the specification. -/
def declaredCollections : List String :=
  ["profiles", "contact_information", "social_networks", "projects",
   "work_experiences", "education", "additional_training", "certifications",
   "skills", "tools", "contact_messages"]

/-- The index table of the specification (collection, field, direction, unique). -/
def declaredIndexes : List IndexSpec :=
  [ ⟨"profiles", [("id", 1)], true⟩,
    ⟨"contact_information", [("id", 1)], true⟩,
    ⟨"social_networks", [("order_index", 1)], false⟩,
    ⟨"projects", [("order_index", 1)], false⟩,
    ⟨"work_experiences", [("order_index", 1)], false⟩,
    ⟨"education", [("order_index", 1)], false⟩,
    ⟨"skills", [("order_index", 1)], false⟩,
    ⟨"tools", [("order_index", 1)], false⟩,
    ⟨"contact_messages", [("sent_at", -1)], false⟩ ]

/-- The database with each of `names` added to its collections. -/
def Database.withCollections (d : Database) (names : List String) : Database :=
  { d with collections := names.foldl addNew d.collections }

/-- The database with each of `specs` added to its indexes. -/
def Database.withIndexes (d : Database) (specs : List IndexSpec) : Database :=
  { d with indexes := specs.foldl addNew d.indexes }

/-- The condition under which `createIndex` throws: the index is new, it is
unique, and two documents of its collection share a value of its key. -/
def Database.rejects (d : Database) (ix : IndexSpec) : Prop :=
  ix ∉ d.indexes ∧ ix.unique = true ∧ ¬ ((d.docsOf ix.coll).map (keyOf ix.key)).Nodup

instance (d : Database) (ix : IndexSpec) : Decidable (d.rejects ix) := by
  unfold Database.rejects
  infer_instance

/-- The unique index on `id` the script requests for collection `c`. -/
def uniqueIdIndex (c : String) : IndexSpec := ⟨c, [("id", 1)], true⟩

/-- The database the script leaves behind when it succeeds. -/
def Database.initialized (d : Database) : Database :=
  (d.withCollections declaredCollections).withIndexes declaredIndexes

/-- The database after a sequence of attempted insertions (collection,
document), in order. -/
def Database.insertMany (d : Database) (ops : List (String × Document)) : Database :=
  ops.foldl (fun e p => e.afterInsert p.1 p.2) d

/-- The server after a sequence of attempted insertions into the target
database. -/
def populated (srv : String → Database) (ops : List (String × Document)) :
    String → Database :=
  Function.update srv targetDb ((srv targetDb).insertMany ops)

/-- A server whose target database holds two profiles with the same id and no
index. -/
def dupProfilesServer : String → Database := fun name =>
  if name = "portfolio_db" then
    ⟨["profiles"], [],
      [("profiles", [("id", Value.str "p1")]),
       ("profiles", [("id", Value.str "p1"), ("name", Value.str "x")])]⟩
  else Database.empty

/-- A server whose target database holds two contact_information documents
with the same id, one profile, and no index. -/
def dupContactsServer : String → Database := fun name =>
  if name = "portfolio_db" then
    ⟨["profiles", "contact_information"], [],
      [("contact_information", [("id", Value.str "c1")]),
       ("profiles", [("id", Value.str "p1")]),
       ("contact_information", [("id", Value.str "c1")])]⟩
  else Database.empty

/-! ## Requests the server cannot satisfy -/

/-- Whether a statement sends a request to the database server. -/
def Stmt.isRequest : Stmt → Bool
  | .createCollection _ => true
  | .createIndex _ _ _ => true
  | _ => false

/-- Whether a statement rebinds the `db` handle. -/
def Stmt.isGetSiblingDB : Stmt → Bool
  | .getSiblingDB _ => true
  | _ => false

/-- Modelled from the spec: the driver, which is not in the repository, raises a
failure "when a requested operation cannot be satisfied (e.g., connectivity
loss, or a uniqueness constraint violated by pre-existing duplicate data)".
The statement at position `n` throws when it is a request to the server and
`fault n` holds (a cause outside the database state), or when the operation
itself throws on the current state. -/
def stepWith (fault : Nat → Bool) (n : Nat) (sh : Shell) (st : Stmt) : Option Shell :=
  if st.isRequest && fault n then none else step sh st

/-- Execute statements in order, numbering them from `n`, with the requests
marked by `fault` failing; the first statement that throws ends the execution,
and what was done before it stays done. -/
def execWith (fault : Nat → Bool) : List Stmt → Nat → Shell → Outcome
  | [], _, sh => ⟨sh, none⟩
  | st :: rest, n, sh =>
      match stepWith fault n sh st with
      | none => ⟨sh, some n⟩
      | some sh' => execWith fault rest (n + 1) sh'

/-- Run the script in a fresh shell session, with the requests marked by
`fault` failing. -/
def runWith (fault : Nat → Bool) (h : String) (srv : String → Database) : Outcome :=
  execWith fault script 0 ⟨h, srv, []⟩

/-! ## Lemmas on the model -/

theorem addNew_of_mem {α : Type} [DecidableEq α] {l : List α} {x : α} (hx : x ∈ l) :
    addNew l x = l := by
  induction l with
  | nil => simp at hx
  | cons y l ih =>
    by_cases hxy : x = y
    · simp [addNew, hxy]
    · have hl : x ∈ l := by
        rcases List.mem_cons.mp hx with e | e
        · exact absurd e hxy
        · exact e
      simp [addNew, hxy, ih hl]

theorem addNew_of_not_mem {α : Type} [DecidableEq α] {l : List α} {x : α} (hx : x ∉ l) :
    addNew l x = l ++ [x] := by
  induction l with
  | nil => rfl
  | cons y l ih =>
    have hxy : x ≠ y := fun e => hx (e ▸ List.mem_cons_self x l)
    have hl : x ∉ l := fun e => hx (List.mem_cons_of_mem y e)
    simp [addNew, hxy, ih hl]

theorem mem_addNew {α : Type} [DecidableEq α] (l : List α) (x y : α) :
    y ∈ addNew l x ↔ y ∈ l ∨ y = x := by
  by_cases hx : x ∈ l
  · rw [addNew_of_mem hx]
    constructor
    · intro hy; exact Or.inl hy
    · rintro (hy | rfl)
      · exact hy
      · exact hx
  · rw [addNew_of_not_mem hx]
    simp

theorem nodup_addNew {α : Type} [DecidableEq α] {l : List α} (x : α) (hl : l.Nodup) :
    (addNew l x).Nodup := by
  by_cases hx : x ∈ l
  · rw [addNew_of_mem hx]
    exact hl
  · rw [addNew_of_not_mem hx]
    exact List.Nodup.append hl (List.nodup_singleton x) (by simpa using hx)

theorem mem_foldl_addNew {α : Type} [DecidableEq α] (xs l : List α) (y : α) :
    y ∈ xs.foldl addNew l ↔ y ∈ l ∨ y ∈ xs := by
  induction xs generalizing l with
  | nil => simp
  | cons x xs ih =>
    simp only [List.foldl_cons, ih, mem_addNew, List.mem_cons]
    tauto

theorem foldl_addNew_of_subset {α : Type} [DecidableEq α] (xs l : List α)
    (hsub : ∀ x ∈ xs, x ∈ l) : xs.foldl addNew l = l := by
  induction xs generalizing l with
  | nil => rfl
  | cons x xs ih =>
    have hx : x ∈ l := hsub x (List.mem_cons_self x xs)
    simp only [List.foldl_cons, addNew_of_mem hx]
    exact ih l (fun y hy => hsub y (List.mem_cons_of_mem x hy))

theorem nodup_foldl_addNew {α : Type} [DecidableEq α] (xs l : List α) (hl : l.Nodup) :
    (xs.foldl addNew l).Nodup := by
  induction xs generalizing l with
  | nil => exact hl
  | cons x xs ih => exact ih (addNew l x) (nodup_addNew x hl)

theorem exec_getSiblingDB (name : String) (rest : List Stmt) (n : Nat) (sh : Shell) :
    exec (.getSiblingDB name :: rest) n sh = exec rest (n + 1) { sh with db := name } := rfl

theorem exec_createCollection (name : String) (rest : List Stmt) (n : Nat) (sh : Shell) :
    exec (.createCollection name :: rest) n sh =
      exec rest (n + 1) { sh with
        server := (Function.update sh.server sh.db ((sh.server sh.db).withCollections [name])) } :=
  rfl

theorem exec_print (msg : String) (rest : List Stmt) (n : Nat) (sh : Shell) :
    exec (.print msg :: rest) n sh = exec rest (n + 1) { sh with out := sh.out ++ [msg] } := rfl

theorem exec_createIndex (coll : String) (key : List (String × Int)) (unique : Bool)
    (rest : List Stmt) (n : Nat) (sh : Shell) :
    exec (.createIndex coll key unique :: rest) n sh =
      match (sh.server sh.db).createIndex ⟨coll, key, unique⟩ with
      | none => ⟨sh, some n⟩
      | some d => exec rest (n + 1) { sh with server := Function.update sh.server sh.db d } := by
  simp only [exec, step]
  cases (sh.server sh.db).createIndex ⟨coll, key, unique⟩ <;> rfl

theorem createIndex_eq (d : Database) (ix : IndexSpec) (hc : ix.coll ∈ d.collections) :
    d.createIndex ix = if d.rejects ix then none else some (d.withIndexes [ix]) := by
  simp only [Database.createIndex, Database.withIndexes, Database.rejects, List.foldl_cons,
    List.foldl_nil, addNew_of_mem hc]
  by_cases h1 : ix ∈ d.indexes
  · simp [h1, addNew_of_mem h1]
  · by_cases h2 : ix.unique = true ∧ ¬ ((d.docsOf ix.coll).map (keyOf ix.key)).Nodup
    · simp [h1, h2]
    · simp [h1, h2, addNew_of_not_mem h1]

theorem withIndexes_withIndexes (d : Database) (a b : List IndexSpec) :
    (d.withIndexes a).withIndexes b = d.withIndexes (a ++ b) := by
  simp [Database.withIndexes, List.foldl_append]

theorem withCollections_withCollections (d : Database) (a b : List String) :
    (d.withCollections a).withCollections b = d.withCollections (a ++ b) := by
  simp [Database.withCollections, List.foldl_append]

theorem not_rejects_nonunique (d : Database) (coll : String) (key : List (String × Int)) :
    ¬ d.rejects ⟨coll, key, false⟩ := by
  simp [Database.rejects]

theorem exec_createIndex_of_mem (coll : String) (key : List (String × Int)) (unique : Bool)
    (rest : List Stmt) (n : Nat) (sh : Shell) (hc : coll ∈ (sh.server sh.db).collections) :
    exec (.createIndex coll key unique :: rest) n sh =
      if (sh.server sh.db).rejects ⟨coll, key, unique⟩ then ⟨sh, some n⟩
      else exec rest (n + 1) { sh with
        server := (Function.update sh.server sh.db
          ((sh.server sh.db).withIndexes [⟨coll, key, unique⟩])) } := by
  rw [exec_createIndex, createIndex_eq _ _ hc]
  by_cases hr : (sh.server sh.db).rejects ⟨coll, key, unique⟩
  · simp only [hr, if_true]
  · simp only [hr, if_false]

theorem run_eq (h : String) (srv : String → Database) :
    run h srv =
      if ((srv targetDb).withCollections declaredCollections).rejects (uniqueIdIndex "profiles") then
        ⟨⟨targetDb, Function.update srv targetDb
          ((srv targetDb).withCollections declaredCollections), []⟩, some 12⟩
      else if (((srv targetDb).withCollections declaredCollections).withIndexes
          [uniqueIdIndex "profiles"]).rejects (uniqueIdIndex "contact_information") then
        ⟨⟨targetDb, Function.update srv targetDb
          (((srv targetDb).withCollections declaredCollections).withIndexes
            [uniqueIdIndex "profiles"]), []⟩, some 13⟩
      else
        ⟨⟨targetDb, Function.update srv targetDb
          (((srv targetDb).withCollections declaredCollections).withIndexes declaredIndexes),
          [msgInitialized, msgCreated]⟩, none⟩ := by
  have hmem : ∀ (names : List String) (c : String), c ∈ names → ∀ l : List IndexSpec,
      c ∈ (((srv "portfolio_db").withCollections names).withIndexes l).collections := by
    intro names c hc l
    simp only [Database.withCollections, Database.withIndexes, mem_foldl_addNew]
    exact Or.inr hc
  unfold run script targetDb declaredCollections declaredIndexes uniqueIdIndex msgInitialized
    msgCreated
  simp only [exec_getSiblingDB, exec_createCollection, Function.update_same, Function.update_idem,
    withCollections_withCollections, List.cons_append, List.nil_append]
  have hmem0 : ∀ (names : List String) (c : String), c ∈ names →
      c ∈ ((srv "portfolio_db").withCollections names).collections :=
    fun names c hc => hmem names c hc []
  rw [exec_createIndex_of_mem _ _ _ _ _ _ (by
    simp only [Function.update_same]; exact hmem0 _ _ (by decide))]
  simp only [Function.update_same, Function.update_idem]
  split
  · rfl
  rw [exec_createIndex_of_mem _ _ _ _ _ _ (by
    simp only [Function.update_same]; exact hmem _ _ (by decide) _)]
  simp only [Function.update_same, Function.update_idem, withIndexes_withIndexes]
  split
  · rfl
  iterate 7
    rw [exec_createIndex_of_mem _ _ _ _ _ _ (by
      simp only [Function.update_same]; exact hmem _ _ (by decide) _),
      if_neg (not_rejects_nonunique _ _ _)]
    simp only [Function.update_same, Function.update_idem, withIndexes_withIndexes]
  rfl

theorem mem_withCollections (d : Database) (names : List String) (c : String) :
    c ∈ (d.withCollections names).collections ↔ c ∈ d.collections ∨ c ∈ names :=
  mem_foldl_addNew names d.collections c

theorem mem_withIndexes (d : Database) (specs : List IndexSpec) (ix : IndexSpec) :
    ix ∈ (d.withIndexes specs).indexes ↔ ix ∈ d.indexes ∨ ix ∈ specs :=
  mem_foldl_addNew specs d.indexes ix

theorem withCollections_eq_self (d : Database) (names : List String)
    (hsub : ∀ c ∈ names, c ∈ d.collections) : d.withCollections names = d := by
  simp [Database.withCollections, foldl_addNew_of_subset names d.collections hsub]

theorem withIndexes_eq_self (d : Database) (specs : List IndexSpec)
    (hsub : ∀ ix ∈ specs, ix ∈ d.indexes) : d.withIndexes specs = d := by
  simp [Database.withIndexes, foldl_addNew_of_subset specs d.indexes hsub]

theorem not_rejects_of_mem (d : Database) (ix : IndexSpec) (hix : ix ∈ d.indexes) :
    ¬ d.rejects ix := fun hr => hr.1 hix

theorem run_success (h : String) (srv : String → Database)
    (hok : (run h srv).failedAt = none) :
    (run h srv).shell =
      ⟨targetDb, Function.update srv targetDb (srv targetDb).initialized,
        [msgInitialized, msgCreated]⟩ := by
  rw [run_eq] at hok ⊢
  split_ifs at hok ⊢
  rfl

theorem exec_append (a b : List Stmt) (n : Nat) (sh : Shell) :
    exec (a ++ b) n sh =
      match (exec a n sh).failedAt with
      | none => exec b (n + a.length) (exec a n sh).shell
      | some _ => exec a n sh := by
  induction a generalizing n sh with
  | nil => simp [exec]
  | cons st rest ih =>
    cases hs : step sh st with
    | none => simp [exec, hs]
    | some sh' =>
      have e : n + 1 + rest.length = n + (rest.length + 1) := by omega
      simp only [List.cons_append, exec, hs, List.length_cons]
      rw [← e]
      exact ih (n + 1) sh'

theorem run_fresh (h : String) :
    run h freshServer =
      ⟨⟨targetDb, Function.update freshServer targetDb Database.empty.initialized,
        [msgInitialized, msgCreated]⟩, none⟩ := by
  rw [run_eq, if_neg (by decide), if_neg (by decide)]
  rfl

theorem runDb_fresh (h : String) : runDb h freshServer = Database.empty.initialized := by
  simp only [runDb, run_fresh, Function.update_same]

theorem mem_initialized_collections (d : Database) (c : String) :
    c ∈ d.initialized.collections ↔ c ∈ d.collections ∨ c ∈ declaredCollections :=
  mem_withCollections d declaredCollections c

theorem mem_initialized_indexes (d : Database) (ix : IndexSpec) :
    ix ∈ d.initialized.indexes ↔ ix ∈ d.indexes ∨ ix ∈ declaredIndexes :=
  mem_withIndexes (d.withCollections declaredCollections) declaredIndexes ix

theorem run_of_complete (h : String) (srv : String → Database)
    (hc : ∀ c ∈ declaredCollections, c ∈ (srv targetDb).collections)
    (hi : ∀ ix ∈ declaredIndexes, ix ∈ (srv targetDb).indexes) :
    run h srv = ⟨⟨targetDb, srv, [msgInitialized, msgCreated]⟩, none⟩ := by
  have e1 : (srv targetDb).withCollections declaredCollections = srv targetDb :=
    withCollections_eq_self _ _ hc
  have e2 : (srv targetDb).withIndexes [uniqueIdIndex "profiles"] = srv targetDb :=
    withIndexes_eq_self _ _ (fun ix hix => hi ix (by
      rw [List.mem_singleton] at hix; subst hix; decide))
  have e3 : (srv targetDb).withIndexes declaredIndexes = srv targetDb :=
    withIndexes_eq_self _ _ hi
  rw [run_eq, e1, e2, e3,
    if_neg (not_rejects_of_mem _ _ (hi _ (by decide))),
    if_neg (not_rejects_of_mem _ _ (hi _ (by decide))), Function.update_eq_self]

theorem afterInsert_indexes (d : Database) (c : String) (doc : Document) :
    (d.afterInsert c doc).indexes = d.indexes := by
  unfold Database.afterInsert Database.insertOne
  split <;> rfl

theorem afterInsert_collections (d : Database) (c : String) (doc : Document) (x : String)
    (hx : x ∈ d.collections) : x ∈ (d.afterInsert c doc).collections := by
  unfold Database.afterInsert Database.insertOne
  split
  · exact hx
  · simp only [Option.getD_some, mem_addNew]
    exact Or.inl hx

theorem insertMany_indexes (d : Database) (ops : List (String × Document)) :
    (d.insertMany ops).indexes = d.indexes := by
  induction ops generalizing d with
  | nil => rfl
  | cons p ops ih =>
    simp only [Database.insertMany, List.foldl_cons] at ih ⊢
    rw [ih, afterInsert_indexes]

theorem insertMany_collections (d : Database) (ops : List (String × Document)) (x : String)
    (hx : x ∈ d.collections) : x ∈ (d.insertMany ops).collections := by
  induction ops generalizing d with
  | nil => exact hx
  | cons p ops ih =>
    simp only [Database.insertMany, List.foldl_cons] at ih ⊢
    exact ih _ (afterInsert_collections d p.1 p.2 x hx)

theorem insertOne_duplicate_id (d : Database) (c : String)
    (hix : uniqueIdIndex c ∈ d.indexes) (doc old : Document) (hold : old ∈ d.docsOf c)
    (hid : doc.get "id" = old.get "id") :
    d.insertOne c doc = none ∧ d.afterInsert c doc = d := by
  have hcond : ∃ ix ∈ d.indexes, ix.coll = c ∧ ix.unique = true ∧
      keyOf ix.key doc ∈ (d.docsOf c).map (keyOf ix.key) := by
    refine ⟨uniqueIdIndex c, hix, rfl, rfl, ?_⟩
    refine List.mem_map.mpr ⟨old, hold, ?_⟩
    simp only [uniqueIdIndex, keyOf, List.map_cons, List.map_nil, hid]
  have e : d.insertOne c doc = none := by
    unfold Database.insertOne
    rw [if_pos hcond]
  exact ⟨e, by unfold Database.afterInsert; rw [e]; rfl⟩

theorem rejects_uniqueIdIndex (d : Database) (c : String) :
    d.rejects (uniqueIdIndex c) ↔
      uniqueIdIndex c ∉ d.indexes ∧ ¬ ((d.docsOf c).map (fun doc => doc.get "id")).Nodup := by
  have e : (d.docsOf c).map (keyOf [("id", 1)]) =
      ((d.docsOf c).map (fun doc => doc.get "id")).map (fun v => [v]) := by
    simp [keyOf, List.map_map, Function.comp_def]
  simp only [Database.rejects, uniqueIdIndex, true_and, e,
    List.nodup_map_iff List.singleton_injective]

theorem withCollections_indexes (d : Database) (names : List String) :
    (d.withCollections names).indexes = d.indexes := by
  simp only [Database.withCollections]

theorem withCollections_docsOf (d : Database) (names : List String) (c : String) :
    (d.withCollections names).docsOf c = d.docsOf c := by
  simp only [Database.withCollections, Database.docsOf]

theorem withIndexes_docsOf (d : Database) (specs : List IndexSpec) (c : String) :
    (d.withIndexes specs).docsOf c = d.docsOf c := by
  simp only [Database.withIndexes, Database.docsOf]

theorem withIndexes_collections (d : Database) (specs : List IndexSpec) :
    (d.withIndexes specs).collections = d.collections := by
  simp only [Database.withIndexes]

theorem mem_indexRequests (stmts : List Stmt) (h c : String) (key : List (String × Int))
    (unique : Bool) (hmem : Stmt.createIndex c key unique ∈ stmts) :
    ∃ db, (db, (⟨c, key, unique⟩ : IndexSpec)) ∈ indexRequests h stmts := by
  induction stmts generalizing h with
  | nil => simp at hmem
  | cons st rest ih =>
    rcases List.mem_cons.mp hmem with e | e
    · subst e
      exact ⟨h, by simp [indexRequests]⟩
    · cases st with
      | getSiblingDB name =>
        obtain ⟨db, hdb⟩ := ih name e
        exact ⟨db, by simpa [indexRequests] using hdb⟩
      | createCollection name =>
        obtain ⟨db, hdb⟩ := ih h e
        exact ⟨db, by simpa [indexRequests] using hdb⟩
      | createIndex c2 key2 unique2 =>
        obtain ⟨db, hdb⟩ := ih h e
        exact ⟨db, by simp only [indexRequests]; exact List.mem_cons_of_mem _ hdb⟩
      | print msg =>
        obtain ⟨db, hdb⟩ := ih h e
        exact ⟨db, by simpa [indexRequests] using hdb⟩

theorem execWith_noFault (stmts : List Stmt) (n : Nat) (sh : Shell) :
    execWith (fun _ => false) stmts n sh = exec stmts n sh := by
  induction stmts generalizing n sh with
  | nil => rfl
  | cons st rest ih =>
    simp only [execWith, exec, stepWith, Bool.and_false, Bool.false_eq_true, if_false]
    cases step sh st with
    | none => rfl
    | some sh' => exact ih (n + 1) sh'

theorem runWith_noFault (h : String) (srv : String → Database) :
    runWith (fun _ => false) h srv = run h srv :=
  execWith_noFault script 0 ⟨h, srv, []⟩

theorem stepWith_some (fault : Nat → Bool) (n : Nat) (sh sh' : Shell) (st : Stmt)
    (hs : stepWith fault n sh st = some sh') : step sh st = some sh' := by
  unfold stepWith at hs
  split at hs
  · exact absurd hs (by simp)
  · exact hs

theorem stepWith_none_isRequest (fault : Nat → Bool) (n : Nat) (sh : Shell) (st : Stmt)
    (hs : stepWith fault n sh st = none) : st.isRequest = true := by
  cases st with
  | getSiblingDB name => simp [stepWith, Stmt.isRequest, step] at hs
  | createCollection name => rfl
  | createIndex coll key unique => rfl
  | print msg => simp [stepWith, Stmt.isRequest, step] at hs

theorem execWith_getSiblingDB (fault : Nat → Bool) (name : String) (rest : List Stmt) (n : Nat)
    (sh : Shell) :
    execWith fault (.getSiblingDB name :: rest) n sh =
      execWith fault rest (n + 1) { sh with db := name } := by
  simp [execWith, stepWith, Stmt.isRequest, step]

theorem execWith_failedAt (fault : Nat → Bool) (stmts : List Stmt) (n : Nat) (sh : Shell)
    (m : Nat) (hfail : (execWith fault stmts n sh).failedAt = some m) :
    ∃ i st, m = n + i ∧ stmts[i]? = some st ∧
      execWith fault (stmts.take i) n sh = ⟨(execWith fault stmts n sh).shell, none⟩ ∧
      stepWith fault m (execWith fault stmts n sh).shell st = none := by
  induction stmts generalizing n sh with
  | nil => simp [execWith] at hfail
  | cons st rest ih =>
    cases hs : stepWith fault n sh st with
    | none =>
      simp only [execWith, hs, Option.some.injEq] at hfail ⊢
      subst hfail
      exact ⟨0, st, by omega, by simp, rfl, hs⟩
    | some sh' =>
      simp only [execWith, hs] at hfail ⊢
      obtain ⟨i, st', hm, hget, hpre, hstep⟩ := ih (n + 1) sh' hfail
      refine ⟨i + 1, st', by omega, by simpa using hget, ?_, hstep⟩
      simp only [List.take_succ_cons, execWith, hs]
      exact hpre

theorem createIndex_some (d d' : Database) (ix : IndexSpec)
    (hd : d.createIndex ix = some d') :
    (∀ c ∈ d.collections, c ∈ d'.collections) ∧
    (∀ c ∈ d'.collections, c ∈ d.collections ∨ c = ix.coll) ∧
    (∀ jx, jx ∈ d'.indexes ↔ jx ∈ d.indexes ∨ jx = ix) := by
  unfold Database.createIndex at hd
  split at hd
  · rename_i hmem
    simp only [Option.some.injEq] at hd
    subst hd
    refine ⟨fun c hc => hc, fun c hc => Or.inl hc, fun jx => ?_⟩
    constructor
    · intro hj; exact Or.inl hj
    · rintro (hj | rfl)
      · exact hj
      · exact hmem
  · split at hd
    · exact absurd hd (by simp)
    · simp only [Option.some.injEq] at hd
      subst hd
      refine ⟨fun c hc => ?_, fun c hc => ?_, fun jx => ?_⟩
      · exact (mem_addNew _ _ _).mpr (Or.inl hc)
      · exact (mem_addNew _ _ _).mp hc
      · simp

theorem execWith_effect (fault : Nat → Bool) (stmts : List Stmt)
    (hns : ∀ st ∈ stmts, st.isGetSiblingDB = false) (n0 : Nat) (sh sh' : Shell)
    (hexec : execWith fault stmts n0 sh = ⟨sh', none⟩) :
    sh'.db = sh.db ∧
    (∀ c, c ∈ (sh.server sh.db).collections ∨
        c ∈ (collectionRequests sh.db stmts).map Prod.snd →
      c ∈ (sh'.server sh.db).collections) ∧
    (∀ c ∈ (sh'.server sh.db).collections,
      c ∈ (sh.server sh.db).collections ∨
      c ∈ (collectionRequests sh.db stmts).map Prod.snd ∨
      c ∈ (indexRequests sh.db stmts).map (fun p => p.2.coll)) ∧
    (∀ jx, jx ∈ (sh'.server sh.db).indexes ↔
      jx ∈ (sh.server sh.db).indexes ∨ jx ∈ (indexRequests sh.db stmts).map Prod.snd) := by
  induction stmts generalizing n0 sh with
  | nil =>
    simp only [execWith, Outcome.mk.injEq, and_true] at hexec
    subst hexec
    simp [collectionRequests, indexRequests]
  | cons st rest ih =>
    have hns' : ∀ st' ∈ rest, st'.isGetSiblingDB = false :=
      fun st' hst' => hns st' (List.mem_cons_of_mem st hst')
    have hst : st.isGetSiblingDB = false := hns st (List.mem_cons_self st rest)
    cases hs : stepWith fault n0 sh st with
    | none => simp [execWith, hs] at hexec
    | some sh1 =>
      simp only [execWith, hs] at hexec
      have hstep := stepWith_some fault n0 sh sh1 st hs
      obtain ⟨hdb, hb, hc, hd⟩ := ih hns' (n0 + 1) sh1 hexec
      cases st with
      | getSiblingDB name => simp [Stmt.isGetSiblingDB] at hst
      | createCollection name =>
        simp only [step, Database.createCollection, Option.map_some', Option.some.injEq] at hstep
        subst hstep
        simp only [Function.update_same, mem_addNew] at hdb hb hc hd
        simp only [collectionRequests, indexRequests, List.map_cons, List.mem_cons]
        refine ⟨hdb, fun c hc' => hb c ?_, fun c hc' => ?_, hd⟩
        · tauto
        · have := hc c hc'
          tauto
      | createIndex coll key unique =>
        simp only [step, Option.map_eq_some'] at hstep
        obtain ⟨d1, hd1, hsh1⟩ := hstep
        subst hsh1
        obtain ⟨h1, h2, h3⟩ := createIndex_some _ _ _ hd1
        simp only [Function.update_same] at hdb hb hc hd
        simp only [collectionRequests, indexRequests, List.map_cons, List.mem_cons]
        refine ⟨hdb, fun c hc' => hb c ?_, fun c hc' => ?_, fun jx => ?_⟩
        · rcases hc' with hc' | hc'
          · exact Or.inl (h1 c hc')
          · exact Or.inr hc'
        · rcases hc c hc' with hx | hx | hx
          · rcases h2 c hx with hy | hy
            · exact Or.inl hy
            · exact Or.inr (Or.inr (Or.inl hy))
          · exact Or.inr (Or.inl hx)
          · exact Or.inr (Or.inr (Or.inr hx))
        · rw [hd jx, h3 jx]
          tauto
      | print msg =>
        simp only [step, Option.some.injEq] at hstep
        subst hstep
        simp only [collectionRequests, indexRequests]
        exact ⟨hdb, hb, hc, hd⟩

theorem request_table : ∀ n : Fin 23,
    script[n.val]?.map Stmt.isRequest = some true →
      (1 ≤ n.val ∧ n.val ≤ 11 ∧
        script[n.val]? = (declaredCollections[n.val - 1]?).map Stmt.createCollection ∧
        (collectionRequests targetDb (script.tail.take (n.val - 1))).map Prod.snd =
          declaredCollections.take (n.val - 1) ∧
        indexRequests targetDb (script.tail.take (n.val - 1)) = []) ∨
      (12 ≤ n.val ∧
        script[n.val]? = (declaredIndexes[n.val - 12]?).map
          (fun ix => Stmt.createIndex ix.coll ix.key ix.unique) ∧
        (collectionRequests targetDb (script.tail.take (n.val - 1))).map Prod.snd =
          declaredCollections ∧
        (indexRequests targetDb (script.tail.take (n.val - 1))).map Prod.snd =
          declaredIndexes.take (n.val - 12)) := by
  decide

theorem script_tail_noGetSiblingDB (m : Nat) :
    ∀ st ∈ script.tail.take m, st.isGetSiblingDB = false := by
  have hall : ∀ st ∈ script.tail, st.isGetSiblingDB = false := by decide
  exact fun st hst => hall st (List.mem_of_mem_take hst)

theorem script_take_succ (m : Nat) :
    script.take (m + 1) = Stmt.getSiblingDB targetDb :: script.tail.take m := rfl

/-! ## The declared configuration -/

/-- C1: the collection-creation requests of the script are, in order, the eleven
names profiles, contact_information, social_networks, projects,
work_experiences, education, additional_training, certifications, skills,
tools, contact_messages, all issued against database portfolio_db whatever the
handle was bound to before; they are eleven, pairwise distinct, and no other
collection is requested. -/
theorem collectionRequests_script (h : String) :
    collectionRequests h script =
      [("portfolio_db", "profiles"), ("portfolio_db", "contact_information"),
       ("portfolio_db", "social_networks"), ("portfolio_db", "projects"),
       ("portfolio_db", "work_experiences"), ("portfolio_db", "education"),
       ("portfolio_db", "additional_training"), ("portfolio_db", "certifications"),
       ("portfolio_db", "skills"), ("portfolio_db", "tools"),
       ("portfolio_db", "contact_messages")] ∧
    (collectionRequests h script).length = 11 ∧
    ((collectionRequests h script).map Prod.snd).Nodup := by
  have e : collectionRequests h script =
      [("portfolio_db", "profiles"), ("portfolio_db", "contact_information"),
       ("portfolio_db", "social_networks"), ("portfolio_db", "projects"),
       ("portfolio_db", "work_experiences"), ("portfolio_db", "education"),
       ("portfolio_db", "additional_training"), ("portfolio_db", "certifications"),
       ("portfolio_db", "skills"), ("portfolio_db", "tools"),
       ("portfolio_db", "contact_messages")] := rfl
  rw [e]
  exact ⟨rfl, rfl, by decide⟩

/-- C2: the index-creation requests of the script are, in order, (profiles, id,
ascending, unique), (contact_information, id, ascending, unique),
(social_networks, order_index, ascending, non-unique), the same for projects,
work_experiences, education, skills and tools, and (contact_messages, sent_at,
descending, non-unique), all against portfolio_db; a requested index is unique
exactly when its collection is profiles or contact_information, and descending
exactly when its collection is contact_messages. -/
theorem indexRequests_script (h : String) :
    indexRequests h script =
      [("portfolio_db", ⟨"profiles", [("id", 1)], true⟩),
       ("portfolio_db", ⟨"contact_information", [("id", 1)], true⟩),
       ("portfolio_db", ⟨"social_networks", [("order_index", 1)], false⟩),
       ("portfolio_db", ⟨"projects", [("order_index", 1)], false⟩),
       ("portfolio_db", ⟨"work_experiences", [("order_index", 1)], false⟩),
       ("portfolio_db", ⟨"education", [("order_index", 1)], false⟩),
       ("portfolio_db", ⟨"skills", [("order_index", 1)], false⟩),
       ("portfolio_db", ⟨"tools", [("order_index", 1)], false⟩),
       ("portfolio_db", ⟨"contact_messages", [("sent_at", -1)], false⟩)] ∧
    ∀ p ∈ indexRequests h script,
      (p.2.unique = true ↔ p.2.coll = "profiles" ∨ p.2.coll = "contact_information") ∧
      (p.2.descending = true ↔ p.2.coll = "contact_messages") := by
  have e : indexRequests h script =
      [("portfolio_db", ⟨"profiles", [("id", 1)], true⟩),
       ("portfolio_db", ⟨"contact_information", [("id", 1)], true⟩),
       ("portfolio_db", ⟨"social_networks", [("order_index", 1)], false⟩),
       ("portfolio_db", ⟨"projects", [("order_index", 1)], false⟩),
       ("portfolio_db", ⟨"work_experiences", [("order_index", 1)], false⟩),
       ("portfolio_db", ⟨"education", [("order_index", 1)], false⟩),
       ("portfolio_db", ⟨"skills", [("order_index", 1)], false⟩),
       ("portfolio_db", ⟨"tools", [("order_index", 1)], false⟩),
       ("portfolio_db", ⟨"contact_messages", [("sent_at", -1)], false⟩)] := rfl
  rw [e]
  exact ⟨rfl, by decide⟩

/-- Witness of C2 at the last request of the script: the index on
contact_messages is requested, is not unique and is descending. -/
theorem indexRequests_script_witness :
    (("portfolio_db", ⟨"contact_messages", [("sent_at", -1)], false⟩) : String × IndexSpec) ∈
      indexRequests "test" script ∧
    (((⟨"contact_messages", [("sent_at", -1)], false⟩ : IndexSpec).unique = true ↔
        "contact_messages" = "profiles" ∨ "contact_messages" = "contact_information") ∧
      ((⟨"contact_messages", [("sent_at", -1)], false⟩ : IndexSpec).descending = true ↔
        "contact_messages" = "contact_messages")) :=
  ⟨by decide, (indexRequests_script "test").2
    ("portfolio_db", ⟨"contact_messages", [("sent_at", -1)], false⟩) (by decide)⟩

/-- C3, as stated, fails: the script does not request ten indexes, and a fresh
empty database does not end up with ten of them. -/
theorem ten_indexes_counterexample :
    ¬ ((indexRequests "test" script).length = 10 ∧
       (runDb "test" freshServer).collections.length = 11 ∧
       (runDb "test" freshServer).indexes.length = 10) := by
  decide

/-- C3, amended: the script requests exactly nine index specifications; run on
a fresh empty database it succeeds and leaves a catalog with exactly the eleven
declared collections and exactly the nine declared indexes. -/
theorem nine_indexes_fresh (h : String) :
    (indexRequests h script).length = 9 ∧
    (run h freshServer).failedAt = none ∧
    (runDb h freshServer).collections = declaredCollections ∧
    (runDb h freshServer).collections.length = 11 ∧
    (runDb h freshServer).indexes = declaredIndexes ∧
    (runDb h freshServer).indexes.length = 9 := by
  have e : (indexRequests h script).length = 9 := rfl
  rw [runDb_fresh, run_fresh]
  exact ⟨e, rfl, by decide, by decide, by decide, by decide⟩

/-! ## Re-execution -/

/-- C4: with creation of an existing collection or index a no-op, the script is
idempotent: whenever a first run succeeds (from any server state, with any
initial handle), a second run on the resulting state succeeds too and leaves
every database of the server exactly as the first run left it, in particular
the lists of collections and of indexes of portfolio_db; and a catalog without
repetitions before the first run is without repetitions after the second. -/
theorem run_idempotent (h h' : String) (srv : String → Database)
    (hok : (run h srv).failedAt = none) :
    (run h' (run h srv).shell.server).failedAt = none ∧
    (run h' (run h srv).shell.server).shell.server = (run h srv).shell.server ∧
    (runDb h' (run h srv).shell.server).collections = (runDb h srv).collections ∧
    (runDb h' (run h srv).shell.server).indexes = (runDb h srv).indexes ∧
    ((srv targetDb).collections.Nodup →
      (runDb h' (run h srv).shell.server).collections.Nodup) ∧
    ((srv targetDb).indexes.Nodup →
      (runDb h' (run h srv).shell.server).indexes.Nodup) := by
  have hs := run_success h srv hok
  have hrun : run h' (run h srv).shell.server =
      ⟨⟨targetDb, (run h srv).shell.server, [msgInitialized, msgCreated]⟩, none⟩ := by
    apply run_of_complete
    · intro c hc
      rw [hs]
      simp only [Function.update_same, mem_initialized_collections]
      exact Or.inr hc
    · intro ix hix
      rw [hs]
      simp only [Function.update_same, mem_initialized_indexes]
      exact Or.inr hix
  have hdb : runDb h' (run h srv).shell.server = runDb h srv := by
    simp only [runDb, hrun]
  refine ⟨by rw [hrun], by rw [hrun], by rw [hdb], by rw [hdb], ?_, ?_⟩
  · intro hn
    rw [hdb]
    simp only [runDb, hs, Function.update_same]
    exact nodup_foldl_addNew _ _ hn
  · intro hn
    rw [hdb]
    simp only [runDb, hs, Function.update_same]
    exact nodup_foldl_addNew _ _ hn

/-- Witness of C4 on the empty database: the first run succeeds, the second run
succeeds and changes nothing, and no collection or index occurs twice. -/
theorem run_idempotent_witness :
    (run "test" freshServer).failedAt = none ∧
    (run "test" (run "test" freshServer).shell.server).failedAt = none ∧
    (run "test" (run "test" freshServer).shell.server).shell.server =
      (run "test" freshServer).shell.server ∧
    (runDb "test" (run "test" freshServer).shell.server).collections =
      (runDb "test" freshServer).collections ∧
    (runDb "test" (run "test" freshServer).shell.server).indexes =
      (runDb "test" freshServer).indexes ∧
    (runDb "test" (run "test" freshServer).shell.server).collections.Nodup ∧
    (runDb "test" (run "test" freshServer).shell.server).indexes.Nodup :=
  have hw := run_idempotent "test" "test" freshServer (by decide)
  ⟨by decide, hw.1, hw.2.1, hw.2.2.1, hw.2.2.2.1, hw.2.2.2.2.1 (by decide),
    hw.2.2.2.2.2 (by decide)⟩

/-- C5: after a successful run, inserting into profiles or contact_information a
document whose id equals the id of a document already in that collection is
rejected and leaves the database unchanged; after any sequence of insertions
into the database a second run of the script succeeds, and the same rejection
holds after it. -/
theorem duplicate_id_rejected (h h' : String) (srv : String → Database)
    (ops : List (String × Document)) (hok : (run h srv).failedAt = none) :
    (∀ c ∈ ["profiles", "contact_information"], ∀ doc old : Document,
      old ∈ (runDb h srv).docsOf c → doc.get "id" = old.get "id" →
        (runDb h srv).insertOne c doc = none ∧
        (runDb h srv).afterInsert c doc = runDb h srv) ∧
    (run h' (populated (run h srv).shell.server ops)).failedAt = none ∧
    (∀ c ∈ ["profiles", "contact_information"], ∀ doc old : Document,
      old ∈ (runDb h' (populated (run h srv).shell.server ops)).docsOf c →
      doc.get "id" = old.get "id" →
        (runDb h' (populated (run h srv).shell.server ops)).insertOne c doc = none ∧
        (runDb h' (populated (run h srv).shell.server ops)).afterInsert c doc =
          runDb h' (populated (run h srv).shell.server ops)) := by
  have hs := run_success h srv hok
  have hdecl : ∀ c ∈ ["profiles", "contact_information"], uniqueIdIndex c ∈ declaredIndexes := by
    decide
  have hix1 : ∀ ix ∈ declaredIndexes, ix ∈ (srv targetDb).initialized.indexes :=
    fun ix hix => (mem_initialized_indexes _ ix).mpr (Or.inr hix)
  have hc1 : ∀ c ∈ declaredCollections, c ∈ (srv targetDb).initialized.collections :=
    fun c hc => (mem_initialized_collections _ c).mpr (Or.inr hc)
  have hix2 : ∀ ix ∈ declaredIndexes,
      ix ∈ ((srv targetDb).initialized.insertMany ops).indexes := by
    intro ix hix
    rw [insertMany_indexes]
    exact hix1 ix hix
  have hrun : run h' (populated (Function.update srv targetDb (srv targetDb).initialized) ops) =
      ⟨⟨targetDb, populated (Function.update srv targetDb (srv targetDb).initialized) ops,
        [msgInitialized, msgCreated]⟩, none⟩ := by
    apply run_of_complete
    · intro c hc
      simp only [populated, Function.update_same]
      exact insertMany_collections _ _ _ (hc1 c hc)
    · intro ix hix
      simp only [populated, Function.update_same]
      exact hix2 ix hix
  simp only [runDb, hs, hrun]
  simp only [populated, Function.update_same]
  refine ⟨?_, trivial, ?_⟩
  · intro c hc doc old hold hid
    exact insertOne_duplicate_id _ c (hix1 _ (hdecl c hc)) doc old hold hid
  · intro c hc doc old hold hid
    exact insertOne_duplicate_id _ c (hix2 _ (hdecl c hc)) doc old hold hid

/-- Witness of C5, the scenario of the specification: run on the empty database,
insert a profile with id p1, run again; the second run succeeds, the profile
is still there, and inserting a second profile with id p1 is rejected. -/
theorem duplicate_id_rejected_witness :
    (run "test" freshServer).failedAt = none ∧
    (run "test" (populated (run "test" freshServer).shell.server
      [("profiles", [("id", Value.str "p1")])])).failedAt = none ∧
    (runDb "test" (populated (run "test" freshServer).shell.server
      [("profiles", [("id", Value.str "p1")])])).docsOf "profiles" =
        [[("id", Value.str "p1")]] ∧
    (runDb "test" (populated (run "test" freshServer).shell.server
      [("profiles", [("id", Value.str "p1")])])).insertOne "profiles"
        [("id", Value.str "p1")] = none :=
  have hw := duplicate_id_rejected "test" "test" freshServer
    [("profiles", [("id", Value.str "p1")])] (by decide)
  ⟨by decide, hw.2.1, by decide,
    (hw.2.2 "profiles" (by decide) [("id", Value.str "p1")] [("id", Value.str "p1")]
      (by decide) rfl).1⟩

/-! ## Failure -/

/-- C6: if profiles or contact_information holds two documents with the same id
(the list of id values of its documents has a repetition) and the unique index
on id of that collection does not exist yet, the run fails at a statement that
creates the unique id index of such a collection; and a failing run prints
neither of the two confirmation lines. -/
theorem duplicate_ids_abort (h : String) (srv : String → Database) :
    ((∃ c ∈ ["profiles", "contact_information"],
        ¬ (((srv targetDb).docsOf c).map (fun doc => doc.get "id")).Nodup ∧
        uniqueIdIndex c ∉ (srv targetDb).indexes) →
      ∃ n c, (run h srv).failedAt = some n ∧
        script[n]? = some (Stmt.createIndex c [("id", 1)] true) ∧
        c ∈ ["profiles", "contact_information"] ∧
        ¬ (((srv targetDb).docsOf c).map (fun doc => doc.get "id")).Nodup ∧
        uniqueIdIndex c ∉ (srv targetDb).indexes) ∧
    ((run h srv).failedAt ≠ none →
      msgInitialized ∉ (run h srv).shell.out ∧ msgCreated ∉ (run h srv).shell.out) := by
  have hne : uniqueIdIndex "contact_information" ≠ uniqueIdIndex "profiles" := by decide
  rw [run_eq]
  simp only [rejects_uniqueIdIndex, withCollections_indexes, withCollections_docsOf,
    withIndexes_docsOf, mem_withIndexes, List.mem_singleton]
  constructor
  · rintro ⟨c, hc, hdup, hnew⟩
    by_cases h1 : uniqueIdIndex "profiles" ∉ (srv targetDb).indexes ∧
        ¬ (((srv targetDb).docsOf "profiles").map (fun doc => doc.get "id")).Nodup
    · rw [if_pos h1]
      exact ⟨12, "profiles", rfl, rfl, by decide, h1.2, h1.1⟩
    · rw [if_neg h1]
      have hcc : c = "contact_information" := by
        simp only [List.mem_cons, List.mem_singleton, List.not_mem_nil, or_false] at hc
        rcases hc with rfl | rfl
        · exact absurd ⟨hnew, hdup⟩ h1
        · rfl
      subst hcc
      have h2 : ¬ (uniqueIdIndex "contact_information" ∈ (srv targetDb).indexes ∨
            uniqueIdIndex "contact_information" = uniqueIdIndex "profiles") ∧
          ¬ (((srv targetDb).docsOf "contact_information").map
            (fun doc => doc.get "id")).Nodup :=
        ⟨fun hor => hor.elim hnew hne, hdup⟩
      rw [if_pos h2]
      exact ⟨13, "contact_information", rfl, rfl, by decide, hdup, hnew⟩
  · intro hfail
    split_ifs at hfail ⊢
    · simp
    · simp
    · exact absurd rfl hfail

/-- Witness of C6: with two profiles of id p1 and no index, the run fails at
the creation of the unique index of profiles and prints nothing. -/
theorem duplicate_ids_abort_witness :
    (∃ n c, (run "test" dupProfilesServer).failedAt = some n ∧
        script[n]? = some (Stmt.createIndex c [("id", 1)] true) ∧
        c ∈ ["profiles", "contact_information"] ∧
        ¬ (((dupProfilesServer targetDb).docsOf c).map (fun doc => doc.get "id")).Nodup ∧
        uniqueIdIndex c ∉ (dupProfilesServer targetDb).indexes) ∧
    (msgInitialized ∉ (run "test" dupProfilesServer).shell.out ∧
      msgCreated ∉ (run "test" dupProfilesServer).shell.out) :=
  ⟨(duplicate_ids_abort "test" dupProfilesServer).1
      ⟨"profiles", by decide, by decide, by decide⟩,
    (duplicate_ids_abort "test" dupProfilesServer).2 (by decide)⟩

/-- C7: when a statement of the script fails, for whatever reason the server
cannot satisfy the request, the remaining statements are not executed and
nothing already done is rolled back: the run ends in exactly the state reached
by executing the statements before the failing one, which all succeeded. The
failing statement is a collection request or an index request. If it is the
j-th collection request, the catalog holds the collections present before and
those of the first j-1 collection requests, and the indexes are those present
before. If it is the k-th index request, the catalog holds all eleven declared
collections, its indexes are exactly those present before the run together
with those of the first k-1 index requests, and no index of request k or later
is added by the run. -/
theorem failure_stops_run (fault : Nat → Bool) (h : String) (srv : String → Database)
    (n : Nat) (hfail : (runWith fault h srv).failedAt = some n) :
    ∃ st, script[n]? = some st ∧
      execWith fault (script.take n) 0 ⟨h, srv, []⟩ = ⟨(runWith fault h srv).shell, none⟩ ∧
      stepWith fault n (runWith fault h srv).shell st = none ∧
      ((∃ j c, 1 ≤ j ∧ n = j ∧
          ((collectionRequests h script).map Prod.snd)[j - 1]? = some c ∧
          st = Stmt.createCollection c ∧
          (∀ c', c' ∈ ((runWith fault h srv).shell.server targetDb).collections ↔
            c' ∈ (srv targetDb).collections ∨
            c' ∈ ((collectionRequests h script).map Prod.snd).take (j - 1)) ∧
          (∀ jx, jx ∈ ((runWith fault h srv).shell.server targetDb).indexes ↔
            jx ∈ (srv targetDb).indexes)) ∨
       (∃ k ix, 1 ≤ k ∧ n = 11 + k ∧
          ((indexRequests h script).map Prod.snd)[k - 1]? = some ix ∧
          st = Stmt.createIndex ix.coll ix.key ix.unique ∧
          (∀ c ∈ declaredCollections,
            c ∈ ((runWith fault h srv).shell.server targetDb).collections) ∧
          (∀ jx, jx ∈ ((runWith fault h srv).shell.server targetDb).indexes ↔
            jx ∈ (srv targetDb).indexes ∨
            jx ∈ ((indexRequests h script).map Prod.snd).take (k - 1)) ∧
          (∀ jx ∈ ((indexRequests h script).map Prod.snd).drop (k - 1),
            jx ∈ ((runWith fault h srv).shell.server targetDb).indexes →
              jx ∈ (srv targetDb).indexes))) := by
  have hreqC : (collectionRequests h script).map Prod.snd = declaredCollections := rfl
  have hreqI : (indexRequests h script).map Prod.snd = declaredIndexes := rfl
  have hnodup : declaredIndexes.Nodup := by decide
  have hfail2 : (execWith fault script 0 ⟨h, srv, []⟩).failedAt = some n := hfail
  obtain ⟨i, st, hi, hget, hpre, hstep⟩ :=
    execWith_failedAt fault script 0 ⟨h, srv, []⟩ n hfail2
  have hin : i = n := by omega
  subst hin
  have hpre2 : execWith fault (script.take i) 0 ⟨h, srv, []⟩ =
      ⟨(runWith fault h srv).shell, none⟩ := hpre
  have hstep2 : stepWith fault i (runWith fault h srv).shell st = none := hstep
  have hreq : st.isRequest = true := stepWith_none_isRequest fault i _ st hstep
  have hlt : i < 23 := by
    by_contra hge
    have hnone : script[i]? = none := List.getElem?_eq_none (by
      have : script.length = 23 := rfl
      omega)
    rw [hnone] at hget
    exact absurd hget (by simp)
  have htab := request_table ⟨i, hlt⟩ (by simp only [hget, Option.map_some', hreq])
  simp only at htab
  rw [hreqC, hreqI]
  refine ⟨st, hget, hpre2, hstep2, ?_⟩
  obtain ⟨m, rfl⟩ : ∃ m, i = m + 1 := by
    rcases htab with ⟨h1, -⟩ | ⟨h12, -⟩
    · exact ⟨i - 1, by omega⟩
    · exact ⟨i - 1, by omega⟩
  rw [script_take_succ, execWith_getSiblingDB] at hpre2
  obtain ⟨-, hb, hc, hd⟩ := execWith_effect fault (script.tail.take m)
    (script_tail_noGetSiblingDB m) (0 + 1) ⟨targetDb, srv, []⟩ _ hpre2
  simp only [Nat.add_sub_cancel] at htab hb hc hd
  rcases htab with ⟨-, -, hst, hcr, hir⟩ | ⟨h12, hst, hcr, hir⟩
  · left
    rw [hget] at hst
    obtain ⟨c, hcget, hceq⟩ := Option.map_eq_some'.mp hst.symm
    rw [hcr] at hb hc
    rw [hir] at hc hd
    refine ⟨m + 1, c, by omega, rfl, by simpa using hcget, hceq.symm, fun c' => ⟨fun hc' => ?_, fun hc' => ?_⟩,
      fun jx => ?_⟩
    · rcases hc c' hc' with hx | hx | hx
      · exact Or.inl hx
      · exact Or.inr (by simpa using hx)
      · simp at hx
    · exact hb c' (by simpa using hc')
    · simpa using hd jx
  · right
    rw [hget] at hst
    obtain ⟨ix, hixget, hixeq⟩ := Option.map_eq_some'.mp hst.symm
    rw [hcr] at hb
    rw [hir] at hd
    have hk : m + 1 - 11 - 1 = m + 1 - 12 := by omega
    refine ⟨m + 1 - 11, ix, by omega, by omega, ?_, hixeq.symm, fun c hc' => hb c (Or.inr hc'),
      fun jx => ?_, fun jx hjx hin => ?_⟩
    · rw [hk]; exact hixget
    · rw [hk]; exact hd jx
    · rw [hk] at hjx
      rcases (hd jx).mp hin with hx | hx
      · exact hx
      · exact absurd hjx (fun hdrop =>
          List.disjoint_take_drop hnodup (le_refl _) hx hdrop)

/-- Witness of C7: the server cannot satisfy the request of statement 15, the
fourth index request (projects), on a fresh empty database. The run fails
there; the three indexes requested before stay, and no later index is added. -/
theorem failure_stops_run_witness :
    (runWith (fun n => n == 15) "test" freshServer).failedAt = some 15 ∧
    ((runWith (fun n => n == 15) "test" freshServer).shell.server targetDb).indexes =
      declaredIndexes.take 3 ∧
    ∃ st, script[15]? = some st ∧
      execWith (fun n => n == 15) (script.take 15) 0 ⟨"test", freshServer, []⟩ =
        ⟨(runWith (fun n => n == 15) "test" freshServer).shell, none⟩ ∧
      stepWith (fun n => n == 15) 15
        (runWith (fun n => n == 15) "test" freshServer).shell st = none ∧
      ((∃ j c, 1 ≤ j ∧ 15 = j ∧
          ((collectionRequests "test" script).map Prod.snd)[j - 1]? = some c ∧
          st = Stmt.createCollection c ∧
          (∀ c', c' ∈ ((runWith (fun n => n == 15) "test" freshServer).shell.server
              targetDb).collections ↔
            c' ∈ (freshServer targetDb).collections ∨
            c' ∈ ((collectionRequests "test" script).map Prod.snd).take (j - 1)) ∧
          (∀ jx, jx ∈ ((runWith (fun n => n == 15) "test" freshServer).shell.server
              targetDb).indexes ↔
            jx ∈ (freshServer targetDb).indexes)) ∨
       (∃ k ix, 1 ≤ k ∧ 15 = 11 + k ∧
          ((indexRequests "test" script).map Prod.snd)[k - 1]? = some ix ∧
          st = Stmt.createIndex ix.coll ix.key ix.unique ∧
          (∀ c ∈ declaredCollections,
            c ∈ ((runWith (fun n => n == 15) "test" freshServer).shell.server
              targetDb).collections) ∧
          (∀ jx, jx ∈ ((runWith (fun n => n == 15) "test" freshServer).shell.server
              targetDb).indexes ↔
            jx ∈ (freshServer targetDb).indexes ∨
            jx ∈ ((indexRequests "test" script).map Prod.snd).take (k - 1)) ∧
          (∀ jx ∈ ((indexRequests "test" script).map Prod.snd).drop (k - 1),
            jx ∈ ((runWith (fun n => n == 15) "test" freshServer).shell.server
              targetDb).indexes →
              jx ∈ (freshServer targetDb).indexes))) :=
  ⟨by decide, by decide,
    failure_stops_run (fun n => n == 15) "test" freshServer 15 (by decide)⟩

/-! ## Output and frame -/

/-- C8: a successful run prints exactly two lines, the two fixed confirmation
strings in this order. The two print statements are the last two statements of
the script, after all eleven collection requests and all nine index requests;
executing the statements before them succeeds, prints nothing, and already
leaves the server in its final state. -/
theorem success_output (h : String) (srv : String → Database)
    (hok : (run h srv).failedAt = none) :
    (run h srv).shell.out =
      ["✅ Base de datos portfolio_db inicializada correctamente",
       "✅ Colecciones e índices creados"] ∧
    script = script.take 21 ++
      [Stmt.print "✅ Base de datos portfolio_db inicializada correctamente",
       Stmt.print "✅ Colecciones e índices creados"] ∧
    (∀ msg, Stmt.print msg ∉ script.take 21) ∧
    collectionRequests h (script.take 21) = collectionRequests h script ∧
    indexRequests h (script.take 21) = indexRequests h script ∧
    exec (script.take 21) 0 ⟨h, srv, []⟩ =
      ⟨⟨targetDb, (run h srv).shell.server, []⟩, none⟩ := by
  have hsplit : script = script.take 21 ++
      [Stmt.print "✅ Base de datos portfolio_db inicializada correctamente",
       Stmt.print "✅ Colecciones e índices creados"] := rfl
  have hnoprint : ∀ msg, Stmt.print msg ∉ script.take 21 := by
    have hall : ∀ st ∈ script.take 21, st.isPrint = false := by decide
    intro msg hmem
    exact absurd (hall _ hmem) (by simp [Stmt.isPrint])
  have hs := run_success h srv hok
  have hrun : run h srv = exec (script.take 21 ++
      [Stmt.print "✅ Base de datos portfolio_db inicializada correctamente",
       Stmt.print "✅ Colecciones e índices creados"]) 0 ⟨h, srv, []⟩ := by
    rw [← hsplit]
    rfl
  rw [exec_append] at hrun
  refine ⟨by rw [hs]; rfl, hsplit, hnoprint, rfl, rfl, ?_⟩
  cases hpre : exec (script.take 21) 0 ⟨h, srv, []⟩ with
  | mk sh' fa =>
    rw [hpre] at hrun
    cases fa with
    | some m =>
      dsimp only at hrun
      rw [hrun] at hok
      exact absurd hok (by simp)
    | none =>
      dsimp only at hrun
      rw [exec_print, exec_print] at hrun
      simp only [exec] at hrun
      rw [hrun] at hs
      simp only [Shell.mk.injEq] at hs
      obtain ⟨hdb, hsrv, hout⟩ := hs
      have hout2 : sh'.out = [] := by
        have hlen := congrArg List.length hout
        simp [msgInitialized, msgCreated] at hlen
        exact hlen
      have hsh : sh' = ⟨targetDb, (run h srv).shell.server, []⟩ := by
        cases sh'
        simp only [Shell.mk.injEq]
        simp only at hdb hsrv hout2
        refine ⟨hdb, ?_, hout2⟩
        rw [hrun]
      rw [hsh]

/-- Witness of C8 on the empty database: the run succeeds and prints the two
confirmation lines, after the twenty-one statements before them. -/
theorem success_output_witness :
    (run "test" freshServer).failedAt = none ∧
    (run "test" freshServer).shell.out =
      ["✅ Base de datos portfolio_db inicializada correctamente",
       "✅ Colecciones e índices creados"] ∧
    exec (script.take 21) 0 ⟨"test", freshServer, []⟩ =
      ⟨⟨targetDb, (run "test" freshServer).shell.server, []⟩, none⟩ :=
  have hw := success_output "test" freshServer (by decide)
  ⟨by decide, hw.1, hw.2.2.2.2.2⟩

/-- C9: the run, successful or not, inserts, changes and deletes no document and
drops nothing: in the target database the documents of every collection are
those before the run, every collection and every index present before is still
present, and every other database of the server is untouched; run on a fresh
empty database, each of the eleven declared collections exists and holds no
document. -/
theorem run_frame (h : String) (srv : String → Database) :
    (runDb h srv).docs = (srv targetDb).docs ∧
    (∀ c, (runDb h srv).docsOf c = (srv targetDb).docsOf c) ∧
    (∀ c ∈ (srv targetDb).collections, c ∈ (runDb h srv).collections) ∧
    (∀ ix ∈ (srv targetDb).indexes, ix ∈ (runDb h srv).indexes) ∧
    (∀ name, name ≠ targetDb → (run h srv).shell.server name = srv name) ∧
    (∀ c ∈ declaredCollections,
      c ∈ (runDb h freshServer).collections ∧ ((runDb h freshServer).docsOf c).length = 0) := by
  have hfresh : ∀ c ∈ declaredCollections,
      c ∈ (runDb h freshServer).collections ∧
        ((runDb h freshServer).docsOf c).length = 0 := by
    rw [runDb_fresh]
    decide
  refine ⟨?_, ?_, ?_, ?_, ?_, hfresh⟩
  · simp only [runDb]
    rw [run_eq]
    split_ifs <;>
      simp only [Function.update_same, Database.withCollections, Database.withIndexes]
  · intro c
    simp only [runDb]
    rw [run_eq]
    split_ifs <;>
      simp only [Function.update_same, withIndexes_docsOf, withCollections_docsOf]
  · intro c hc
    simp only [runDb]
    rw [run_eq]
    split_ifs <;>
      simp only [Function.update_same, withIndexes_collections, mem_withCollections] <;>
      exact Or.inl hc
  · intro ix hix
    simp only [runDb]
    rw [run_eq]
    split_ifs <;>
      simp only [Function.update_same, mem_withIndexes, withCollections_indexes]
    · exact hix
    · exact Or.inl hix
    · exact Or.inl hix
  · intro name hname
    rw [run_eq]
    split_ifs <;> simp only [Function.update_noteq hname]

/-- Witness of C9 on a populated database: the documents of the database with
two duplicate contact documents are the same after the (failing) run, and its
two collections are still there. -/
theorem run_frame_witness :
    (runDb "test" dupContactsServer).docs = (dupContactsServer targetDb).docs ∧
    "profiles" ∈ (runDb "test" dupContactsServer).collections ∧
    "contact_information" ∈ (runDb "test" dupContactsServer).collections ∧
    "profiles" ∈ (runDb "test" freshServer).collections ∧
    ((runDb "test" freshServer).docsOf "profiles").length = 0 :=
  have hw := run_frame "test" dupContactsServer
  ⟨hw.1, hw.2.2.1 "profiles" (by decide), hw.2.2.1 "contact_information" (by decide),
    (hw.2.2.2.2.2 "profiles" (by decide)).1, (hw.2.2.2.2.2 "profiles" (by decide)).2⟩

/-- C10: the declared configuration is well formed: every index request of the
script targets a collection requested in the same database by an earlier
statement of the script, its key has exactly one field, no collection receives
two indexes, and the requested collections without an index are exactly
additional_training and certifications. -/
theorem script_wellFormed (h : String) :
    (∀ (n : Nat) (c : String) (key : List (String × Int)) (unique : Bool),
      script[n]? = some (Stmt.createIndex c key unique) →
        (∃ m : Nat, m < n ∧ script[m]? = some (Stmt.createCollection c)) ∧
        (∃ db, (db, c) ∈ collectionRequests h script ∧
          (db, (⟨c, key, unique⟩ : IndexSpec)) ∈ indexRequests h script) ∧
        key.length = 1) ∧
    ((indexRequests h script).map (fun p => p.2.coll)).Nodup ∧
    (∀ c, (c ∈ (collectionRequests h script).map Prod.snd ∧
        c ∉ (indexRequests h script).map (fun p => p.2.coll)) ↔
      (c = "additional_training" ∨ c = "certifications")) := by
  have hc : collectionRequests h script =
      declaredCollections.map (fun c => ("portfolio_db", c)) := rfl
  have hi : indexRequests h script =
      declaredIndexes.map (fun ix => ("portfolio_db", ix)) := rfl
  have hc2 : (collectionRequests h script).map Prod.snd = declaredCollections := rfl
  have hi2 : (indexRequests h script).map (fun p => p.2.coll) =
      declaredIndexes.map (fun ix => ix.coll) := rfl
  rw [hc2, hi2]
  refine ⟨?_, by decide, ?_⟩
  · intro n c key unique hn
    have hlt : n < 23 := by
      by_contra hge
      have hnone : script[n]? = none := List.getElem?_eq_none (by
        have : script.length = 23 := rfl
        omega)
      rw [hnone] at hn
      exact absurd hn (by simp)
    have hall : ∀ k : Fin 23, ∀ ix ∈ declaredIndexes,
        script[k.val]? = some (Stmt.createIndex ix.coll ix.key ix.unique) →
          (∃ m : Fin 23, m.val < k.val ∧ script[m.val]? = some (Stmt.createCollection ix.coll)) ∧
          (("portfolio_db", ix.coll) ∈ declaredCollections.map (fun c => ("portfolio_db", c))) ∧
          ix.key.length = 1 := by
      decide
    have hmem : Stmt.createIndex c key unique ∈ script := List.getElem?_mem hn
    have hix : (⟨c, key, unique⟩ : IndexSpec) ∈ declaredIndexes := by
      obtain ⟨db, hdb⟩ := mem_indexRequests script h c key unique hmem
      rw [hi] at hdb
      obtain ⟨ix, hix, heq⟩ := List.mem_map.mp hdb
      rw [← (Prod.mk.inj heq).2]
      exact hix
    obtain ⟨⟨m, hm, hget⟩, hcoll, hlen⟩ := hall ⟨n, hlt⟩ ⟨c, key, unique⟩ hix hn
    refine ⟨⟨m.val, hm, hget⟩, ⟨"portfolio_db", ?_, ?_⟩, hlen⟩
    · rw [hc]; exact hcoll
    · rw [hi]; exact List.mem_map.mpr ⟨_, hix, rfl⟩
  · intro c
    constructor
    · rintro ⟨hmem, hnot⟩
      have hall : ∀ c ∈ declaredCollections, c ∉ declaredIndexes.map (fun ix => ix.coll) →
          (c = "additional_training" ∨ c = "certifications") := by
        decide
      exact hall c hmem hnot
    · rintro (rfl | rfl) <;> decide

/-- Witness of C10 at the last index request of the script (statement 20): its
collection contact_messages is requested at statement 11, in the same
database, and its key has the single field sent_at. -/
theorem script_wellFormed_witness :
    script[20]? = some (Stmt.createIndex "contact_messages" [("sent_at", -1)] false) ∧
    (∃ m : Nat, m < 20 ∧ script[m]? = some (Stmt.createCollection "contact_messages")) ∧
    (∃ db, (db, "contact_messages") ∈ collectionRequests "test" script ∧
      (db, (⟨"contact_messages", [("sent_at", -1)], false⟩ : IndexSpec)) ∈
        indexRequests "test" script) ∧
    [("sent_at", (-1 : Int))].length = 1 :=
  ⟨rfl, (script_wellFormed "test").1 20 "contact_messages" [("sent_at", -1)] false rfl⟩

end MongoInit
